import Mathlib

/-!
HelloDB: bearer-token authentication.

A shallow embedding of `api/middleware.go` (the gin middleware `authMiddleware`)
together with the parts of the Go standard library and of gin it calls, and a
model of the `token` package (whose implementation files are not part of the
sources at hand and which is therefore modelled from the specification).

Conventions of the embedding:

* a Go `string` is a Lean `String`, i.e. the sequence of runes obtained by
  decoding well-formed UTF-8; `len` is the length in bytes;
* a Go `error` is the record of the text its `Error()` method returns;
* the state a handler runs on is the `*gin.Context` plus the state of
  everything outside it that `VerifyToken` may read or write (its clock, its
  call counters, ...), passed explicitly.
-/

set_option autoImplicit false

namespace HelloDB

/-! ## Go strings -/

/-- The builtin `len` on a Go string: the number of bytes of its UTF-8 encoding. -/
def len (s : String) : Nat := s.utf8ByteSize

/-- The function `unicode.IsSpace`: the Latin-1 spaces are listed, the others are
the remaining code points of the Unicode property `White_Space`. -/
def unicodeIsSpace (r : Char) : Bool :=
  let n := r.toNat
  if n ≤ 0xFF then
    n == 0x09 || n == 0x0A || n == 0x0B || n == 0x0C || n == 0x0D || n == 0x20
      || n == 0x85 || n == 0xA0
  else
    n == 0x1680 || (0x2000 ≤ n && n ≤ 0x200A) || n == 0x2028 || n == 0x2029
      || n == 0x202F || n == 0x205F || n == 0x3000

/-- The scan of `strings.FieldsFunc`: `cur` is the field being read (its runes in
reverse), `none` while the scan is between fields. -/
def fieldsScan (f : Char → Bool) : List Char → Option (List Char) → List String
  | [], none => []
  | [], some cur => [String.mk cur.reverse]
  | r :: rest, none => if f r then fieldsScan f rest none else fieldsScan f rest (some [r])
  | r :: rest, some cur =>
    if f r then String.mk cur.reverse :: fieldsScan f rest none
    else fieldsScan f rest (some (r :: cur))

/-- The function `strings.FieldsFunc`: the maximal runs of runes not satisfying `f`. -/
def FieldsFunc (s : String) (f : Char → Bool) : List String :=
  fieldsScan f s.data none

/-- The function `strings.Fields`: splits around runs of white space
(`unicode.IsSpace`); its ASCII fast path computes the same fields. -/
def Fields (s : String) : List String := FieldsFunc s unicodeIsSpace

/-- The function `unicode.ToLower`. ASCII is handled in the function itself; for the
other runes Go consults the table `unicode.CaseRanges`, here `caseTable`. -/
def unicodeToLower (caseTable : Char → Char) (r : Char) : Char :=
  if r.toNat ≤ 0x7F then
    if 'A' ≤ r ∧ r ≤ 'Z' then Char.ofNat (r.toNat + ('a'.toNat - 'A'.toNat)) else r
  else caseTable r

/-- The function `strings.ToLower`: every rune mapped by `unicode.ToLower`. -/
def ToLower (caseTable : Char → Char) (s : String) : String :=
  String.mk (s.data.map (unicodeToLower caseTable))

/-! ## Go errors -/

/-- A Go `error` value, as far as a caller can observe it through the interface:
the text returned by `Error()`. -/
structure GoError where
  text : String
deriving DecidableEq, Repr

/-- The method `Error()`. -/
def GoError.Error (e : GoError) : String := e.text

/-- The function `errors.New`. -/
def errorsNew (text : String) : GoError := ⟨text⟩

/-! ## net/http headers -/

/-- The bytes allowed in a header field name (`validHeaderFieldByte` of
`net/textproto`): the token characters of RFC 7230. -/
def validHeaderFieldByte (c : Char) : Bool :=
  c.isAlphanum || "!#$%&'*+-.^_`|~".toList.contains c

/-- The casing loop of `canonicalMIMEHeaderKey`: the first letter and any letter
after a hyphen in upper case, the others in lower case. -/
def canonicalCase : Bool → List Char → List Char
  | _, [] => []
  | upper, c :: rest =>
    let c1 :=
      if upper ∧ 'a' ≤ c ∧ c ≤ 'z' then Char.ofNat (c.toNat - 32)
      else if ¬ upper ∧ 'A' ≤ c ∧ c ≤ 'Z' then Char.ofNat (c.toNat + 32)
      else c
    c1 :: canonicalCase (c1 == '-') rest

/-- The function `textproto.CanonicalMIMEHeaderKey`: a key holding a byte that is not
allowed in a field name is returned unchanged. -/
def CanonicalMIMEHeaderKey (s : String) : String :=
  if s.data.all validHeaderFieldByte then String.mk (canonicalCase true s.data) else s

/-- The type `http.Header`, a `map[string][]string` from canonical keys to values. -/
abbrev Header := List (String × List String)

/-- The method `Header.Get`: the first value stored under the canonical form of
`key`, and the empty string when there is none. -/
def Header.Get (h : Header) (key : String) : String :=
  match h.lookup (CanonicalMIMEHeaderKey key) with
  | some (v :: _) => v
  | _ => ""

/-- The constant `http.StatusUnauthorized`. -/
def StatusUnauthorized : Nat := 401

/-! ## gin -/

/-- The constant `abortIndex` of gin (`math.MaxInt8 >> 1`). -/
def abortIndex : Int := 63

/-- The fields of `*gin.Context` the middleware touches. `π` is the type of the
values stored in `Keys`, `β` the type of the objects rendered as JSON.
`Writer` lists the JSON responses rendered so far, each with its status code.
`index` is an `int8` in gin; a route holds fewer than `abortIndex` handlers, so it
stays far from the bounds. -/
structure Context (π β : Type) where
  RequestHeader : Header
  index : Int
  Keys : List (String × π)
  Writer : List (Nat × β)

namespace Context

variable {π β : Type}

/-- The method `GetHeader`: `c.Request.Header.Get(key)`. -/
def GetHeader (c : Context π β) (key : String) : String := c.RequestHeader.Get key

/-- The method `Abort`: no pending handler is called any more. -/
def Abort (c : Context π β) : Context π β := { c with index := abortIndex }

/-- The method `IsAborted`. -/
def IsAborted (c : Context π β) : Bool := decide (c.index ≥ abortIndex)

/-- The method `JSON`: renders `obj` as the response body with status `code`. -/
def JSON (c : Context π β) (code : Nat) (obj : β) : Context π β :=
  { c with Writer := c.Writer ++ [(code, obj)] }

/-- The method `AbortWithStatusJSON`: `Abort` followed by `JSON`. -/
def AbortWithStatusJSON (c : Context π β) (code : Nat) (jsonObj : β) : Context π β :=
  c.Abort.JSON code jsonObj

/-- The method `Set`: `c.Keys[key] = value`. -/
def Set (c : Context π β) (key : String) (value : π) : Context π β :=
  { c with Keys := (key, value) :: c.Keys.filter (fun kv => kv.1 != key) }

/-- The method `Get`: the value stored under `key`, if any. -/
def Get (c : Context π β) (key : String) : Option π := c.Keys.lookup key

end Context

/-- What a handler runs on: the gin context and the state `γ` of what lies outside
it (the token generator, the clock it reads). -/
structure State (γ π β : Type) where
  ctx : Context π β
  world : γ

/-- The type `gin.HandlerFunc`. A handler receives the method `c.Next` of its
context as its first argument. A result `none` means the run did not finish
within the fuel given to the dispatcher. -/
abbrev HandlerFunc (γ π β : Type) :=
  (State γ π β → Option (State γ π β)) → State γ π β → Option (State γ π β)

mutual
/-- The method `Next` of gin: `c.index++`, then the loop over
the pending handlers. -/
def Next {γ π β : Type} (handlers : List (HandlerFunc γ π β)) :
    Nat → State γ π β → Option (State γ π β)
  | 0, _ => none
  | fuel + 1, s =>
    nextLoop handlers fuel { s with ctx := { s.ctx with index := s.ctx.index + 1 } }
/-- The loop of `Next`:
`for c.index < int8(len(c.handlers)) { c.handlers[c.index](c); c.index++ }`.
Indexing the chain at a negative index panics: no result. -/
def nextLoop {γ π β : Type} (handlers : List (HandlerFunc γ π β)) :
    Nat → State γ π β → Option (State γ π β)
  | 0, _ => none
  | fuel + 1, s =>
    if s.ctx.index < handlers.length then
      if s.ctx.index < 0 then none
      else
        match handlers.get? s.ctx.index.toNat with
        | some h =>
          match h (Next handlers fuel) s with
          | some s1 =>
            nextLoop handlers fuel { s1 with ctx := { s1.ctx with index := s1.ctx.index + 1 } }
          | none => none
        | none => none
    else some s
end

/-- How gin serves a request (`handleHTTPRequest`): the context starts with
`index = -1` and `Next` runs the chain of the route. -/
def serve {γ π β : Type} (handlers : List (HandlerFunc γ π β)) (fuel : Nat)
    (s : State γ π β) : Option (State γ π β) :=
  Next handlers fuel { s with ctx := { s.ctx with index := -1 } }

/-! ## api/middleware.go -/

/-- The interface `token.Generator`, as far as the middleware uses it:
`VerifyToken(token string) (*Payload, error)`. The call may read and change the
state `γ`; `π` is the type `*Payload` and `none` is the `nil` error. -/
structure Generator (γ π : Type) where
  VerifyToken : γ → String → (π × Option GoError) × γ

def authorizationHeaderKey : String := "authorization"
def authorizationTypeBearer : String := "bearer"
def authorizationPayloadKey : String := "authorization_payload"

/-- The handler returned by `authMiddleware(tokenGenerator)`.
`apiErrorResponse` is the helper of package `api` that builds the JSON body of an
error response; `caseTable` is the case table of `unicode`. -/
def authMiddleware {γ π β : Type} (caseTable : Char → Char)
    (apiErrorResponse : GoError → β) (tokenGenerator : Generator γ π) :
    HandlerFunc γ π β :=
  fun ctxNext s =>
    let authorizationHeader := s.ctx.GetHeader authorizationHeaderKey
    if len authorizationHeader == 0 then
      let err := errorsNew "authorization header is not provided"
      some { s with ctx := s.ctx.AbortWithStatusJSON StatusUnauthorized (apiErrorResponse err) }
    else
      let fields := Fields authorizationHeader
      if fields.length < 2 then
        let err := errorsNew "invalid authorization header format"
        some { s with
          ctx := s.ctx.AbortWithStatusJSON StatusUnauthorized (apiErrorResponse err) }
      else
        let authorizationType := ToLower caseTable (fields.getD 0 "")
        if authorizationType != authorizationTypeBearer then
          let err := errorsNew ("unsuppoerted authorization type " ++ authorizationType)
          some { s with
            ctx := s.ctx.AbortWithStatusJSON StatusUnauthorized (apiErrorResponse err) }
        else
          let accessToken := fields.getD 1 ""
          match tokenGenerator.VerifyToken s.world accessToken with
          | ((_, some err), w) =>
            some { ctx := s.ctx.AbortWithStatusJSON StatusUnauthorized (apiErrorResponse err),
                   world := w }
          | ((payload, none), w) =>
            ctxNext { ctx := s.ctx.Set authorizationPayloadKey payload, world := w }

/-! ## Package token

The implementation files of package `token` (`NewPasetoGenerator`, `NewPayload`,
`CreateToken`, `VerifyToken`) are not among the sources; the tests in
`token/paseto_generator_test.go` fix their names and signatures and the
specification fixes what they do. -/

/-- The type `time.Time`, as nanoseconds of wall-clock time. -/
abbrev Time := Int

/-- The type `time.Duration`: nanoseconds, signed. -/
abbrev Duration := Int

/-- The constant `time.Second`. -/
def Second : Duration := 1000000000

/-- The constant `time.Minute`. -/
def Minute : Duration := 60 * Second

/-- The type `uuid.UUID`, an array of 16 bytes. -/
abbrev UUID := Fin 16 → Fin 256

/-- The value `uuid.Nil`, the zero UUID. -/
def UUID.Nil : UUID := fun _ => 0

/-- The function `uuid.NewRandom` applied to 16 bytes read from the random source: the
version (4) and variant (10) bits are forced,
`uuid[6] = (uuid[6] & 0x0f) | 0x40` and `uuid[8] = (uuid[8] & 0x3f) | 0x80`. -/
def UUID.NewRandom (random : Fin 16 → Fin 256) : UUID :=
  fun i =>
    if i = 6 then Fin.ofNat (((random 6).val &&& 0x0f) ||| 0x40)
    else if i = 8 then Fin.ofNat (((random 8).val &&& 0x3f) ||| 0x80)
    else random i

/-- Modelled from the spec: the type `Payload` of package `token`, whose declaration is
not among the sources. The spec lists `id`, `subject`, `issued_at` and `expires_at`;
the field names are those the tests read. -/
structure Payload where
  ID : UUID
  Username : String
  IssuedAt : Time
  ExpiredAt : Time
deriving DecidableEq

/-- The zero value of `Payload`. -/
def Payload.zero : Payload := ⟨UUID.Nil, "", 0, 0⟩

/-- Modelled from the spec: the error kinds of package `token` (`InvalidKeySize`,
`InvalidToken`, `ExpiredToken`, `SerializationError`), whose declarations are not
among the sources. -/
inductive TokenError where
  | InvalidKeySize
  | InvalidToken
  | ExpiredToken
  | SerializationError
deriving DecidableEq, Repr

/-- Modelled from the spec: the variable `ErrInvalidToken` of package `token`. -/
def ErrInvalidToken : TokenError := TokenError.InvalidToken

/-- Modelled from the spec: the variable `ErrExpiredToken` of package `token`. -/
def ErrExpiredToken : TokenError := TokenError.ExpiredToken

/-- Modelled from the spec: the serialisation of a payload and the symmetric
authenticated encryption of one scheme and version (the external PASETO library), as
the four steps the spec names. `serialize` gives `none` on an internal encoding
failure; `decrypt` gives `none` when the authentication tag does not match, the token
is malformed or it was produced under another scheme or version; `deserialize` gives
`none` on a deserialisation failure. -/
structure Codec where
  serialize : Payload → Option (List Nat)
  deserialize : List Nat → Option Payload
  encrypt : (key : String) → List Nat → String
  decrypt : (key : String) → String → Option (List Nat)

/-- The contract of the serialisation and of the authenticated encryption: every
payload is serialised and read back unchanged, a token decrypts under the key it
was made with, and a token is never the empty string. -/
def Codec.Sound (c : Codec) : Prop :=
  (∀ p, ∃ bytes, c.serialize p = some bytes ∧ c.deserialize bytes = some p) ∧
  (∀ key bytes, c.decrypt key (c.encrypt key bytes) = some bytes) ∧
  (∀ key bytes, c.encrypt key bytes ≠ "")

/-- Modelled from the spec: the type `PasetoGenerator` of package `token`, not among
the sources: the codec instance, which owns the secret key. -/
structure PasetoGenerator where
  symmetricKey : String
deriving DecidableEq

/-- Modelled from the spec: the function `NewPasetoGenerator` of package `token`, not
among the sources. "Fails with `InvalidKeySize` if `len(secretKey) != 32`." -/
def NewPasetoGenerator (secretKey : String) : Except TokenError PasetoGenerator :=
  if len secretKey != 32 then Except.error TokenError.InvalidKeySize
  else Except.ok { symmetricKey := secretKey }

/-- Modelled from the spec: the function `NewPayload` of package `token`, not among the
sources: a fresh random `id` (a random UUID as `uuid.NewRandom` builds it),
`issued_at = now()`, `expires_at = now() + duration`. `now` is the clock reading
and `random` the 16 bytes read from the random source;
the payload of the spec has no field for `userID`. -/
def NewPayload (now : Time) (random : Fin 16 → Fin 256) (username : String)
    (_userID : UUID) (duration : Duration) : Payload :=
  { ID := UUID.NewRandom random, Username := username, IssuedAt := now,
    ExpiredAt := now + duration }

/-- Modelled from the spec: the method `CreateToken` of package `token`, not among the
sources: build the payload, serialise it, encrypt it under the secret key, return the
token and the payload; "fails with `SerializationError` only on internal encoding
failure". -/
def PasetoGenerator.CreateToken (g : PasetoGenerator) (codec : Codec) (now : Time)
    (random : Fin 16 → Fin 256) (username : String) (userID : UUID)
    (duration : Duration) : Except TokenError (String × Payload) :=
  let payload := NewPayload now random username userID duration
  match codec.serialize payload with
  | none => Except.error TokenError.SerializationError
  | some bytes => Except.ok (codec.encrypt g.symmetricKey bytes, payload)

/-- Modelled from the spec: the method `VerifyToken` of package `token`, not among the
sources: authenticate and decrypt (else `InvalidToken`), deserialise (else
`InvalidToken`), fail with `ExpiredToken` if `now() > expires_at`, return the
payload. `now` is the clock reading at the call. -/
def PasetoGenerator.VerifyToken (g : PasetoGenerator) (codec : Codec) (now : Time)
    (token : String) : Except TokenError Payload :=
  match codec.decrypt g.symmetricKey token with
  | none => Except.error ErrInvalidToken
  | some bytes =>
    match codec.deserialize bytes with
    | none => Except.error ErrInvalidToken
    | some payload =>
      if now > payload.ExpiredAt then Except.error ErrExpiredToken
      else Except.ok payload

/-- An encoding of payloads as numbers, for the example codec. -/
instance Payload.encodable : Encodable Payload :=
  Encodable.ofLeftInverse
    (fun p => (p.ID, p.Username.data.map Char.toNat, p.IssuedAt, p.ExpiredAt))
    (fun t => ⟨t.1, String.mk (t.2.1.map Char.ofNat), t.2.2.1, t.2.2.2⟩)
    (by
      rintro ⟨id, ⟨name⟩, t0, t1⟩
      simp [List.map_map, Function.comp_def])

/-- An example codec: a payload is serialised as its code number, and the
"encryption" of a serialised payload under a key is the header "v2.local." followed
by the code number of the pair (key, serialised payload) in unary. It keeps nothing
secret; it only shows that the contract `Codec.Sound` can be met. -/
def exampleCodec : Codec where
  serialize := fun p => some [Encodable.encode p]
  deserialize := fun bytes =>
    match bytes with
    | [n] => Encodable.decode n
    | _ => none
  encrypt := fun key bytes =>
    String.mk ("v2.local.".data
      ++ List.replicate (Encodable.encode (key.data.map Char.toNat, bytes)) (Char.ofNat 120))
  decrypt := fun key token =>
    if token.data.take 9 = "v2.local.".data then
      match Encodable.decode (α := List Nat × List Nat) (token.data.length - 9) with
      | some (k, bytes) => if k = key.data.map Char.toNat then some bytes else none
      | none => none
    else none

/-- A secret key of 32 bytes. -/
def exampleKey : String := "0123456789abcdef0123456789abcdef"

/-! ## Example data -/

/-- A generator that accepts the token `"good"` and nothing else, and counts its
calls in the state. -/
def countingGenerator : Generator Nat String where
  VerifyToken := fun calls t =>
    if t == "good" then (("payload of good", none), calls + 1)
    else (("", some (errorsNew "token is invalid")), calls + 1)

/-- A request carrying the given `Authorization` header, before any handler ran. -/
def requestWith (authorization : String) : State Nat String String where
  ctx := { RequestHeader := [("Authorization", [authorization])], index := -1,
           Keys := [], Writer := [] }
  world := 0

/-- A request without `Authorization` header. -/
def requestWithout : State Nat String String where
  ctx := { RequestHeader := [("Content-Type", ["application/json"])], index := -1,
           Keys := [], Writer := [] }
  world := 0

/-- A final handler answering `200` with the payload found in the context. -/
def echoHandler : HandlerFunc Nat String String :=
  fun _ s => some { s with ctx := s.ctx.JSON 200 ((s.ctx.Get authorizationPayloadKey).getD "") }

/-- The state left by
`ctx.AbortWithStatusJSON(http.StatusUnauthorized, apiErrorResponse(err)); return`. -/
def abortUnauthorized {γ π β : Type} (apiErrorResponse : GoError → β) (err : GoError)
    (s : State γ π β) : State γ π β :=
  { s with ctx := s.ctx.AbortWithStatusJSON StatusUnauthorized (apiErrorResponse err) }

/-! ## Lemmas on the library functions -/

theorem len_eq_zero_iff (s : String) : len s = 0 ↔ s = "" := by
  rcases s with ⟨data⟩
  cases data with
  | nil => simp [len, String.utf8ByteSize, String.utf8ByteSize.go]
  | cons c cs =>
    have hc : 0 < c.utf8Size := Char.utf8Size_pos c
    have hne : (⟨c :: cs⟩ : String) ≠ "" := by
      intro h
      have := congrArg String.data h
      simp at this
    simp [len, String.utf8ByteSize, String.utf8ByteSize.go, hne]
    omega

theorem Fields_empty : Fields "" = [] := by decide

/-- The fields of some header values: runs of spaces and tabs separate, leading and
trailing white space is dropped. -/
theorem Fields_examples :
    Fields "Bearer abc" = ["Bearer", "abc"] ∧
    Fields "  Bearer \t abc\n" = ["Bearer", "abc"] ∧
    Fields "Bearer" = ["Bearer"] ∧
    Fields " \t " = [] ∧
    Fields "Bearer a b" = ["Bearer", "a", "b"] := by decide

theorem canonical_authorizationHeaderKey :
    CanonicalMIMEHeaderKey authorizationHeaderKey = "Authorization" := by decide

/-- An absent header reads as the empty string. -/
theorem GetHeader_of_absent {π β : Type} (c : Context π β)
    (h : c.RequestHeader.lookup "Authorization" = none) :
    c.GetHeader authorizationHeaderKey = "" := by
  simp [Context.GetHeader, Header.Get, canonical_authorizationHeaderKey, h]

section branches

variable {γ π β : Type} (caseTable : Char → Char) (apiErrorResponse : GoError → β)
  (tokenGenerator : Generator γ π)
  (ctxNext : State γ π β → Option (State γ π β)) (s : State γ π β)

theorem authMiddleware_of_empty (h : s.ctx.GetHeader authorizationHeaderKey = "") :
    authMiddleware caseTable apiErrorResponse tokenGenerator ctxNext s
      = some (abortUnauthorized apiErrorResponse
          (errorsNew "authorization header is not provided") s) := by
  have h0 : len (s.ctx.GetHeader authorizationHeaderKey) = 0 := (len_eq_zero_iff _).2 h
  simp [authMiddleware, abortUnauthorized, h0]

theorem authMiddleware_of_short (h : s.ctx.GetHeader authorizationHeaderKey ≠ "")
    (hf : (Fields (s.ctx.GetHeader authorizationHeaderKey)).length < 2) :
    authMiddleware caseTable apiErrorResponse tokenGenerator ctxNext s
      = some (abortUnauthorized apiErrorResponse
          (errorsNew "invalid authorization header format") s) := by
  have h0 : len (s.ctx.GetHeader authorizationHeaderKey) ≠ 0 :=
    fun e => h ((len_eq_zero_iff _).1 e)
  simp [authMiddleware, abortUnauthorized, h0, hf]

theorem header_ne_empty_of_fields {hdr f0 : String} {rest : List String}
    (hf : Fields hdr = f0 :: rest) : hdr ≠ "" := by
  intro e
  rw [e, Fields_empty] at hf
  cases hf

theorem authMiddleware_of_scheme {f0 f1 : String} {rest : List String}
    (hf : Fields (s.ctx.GetHeader authorizationHeaderKey) = f0 :: f1 :: rest)
    (hs : ToLower caseTable f0 ≠ authorizationTypeBearer) :
    authMiddleware caseTable apiErrorResponse tokenGenerator ctxNext s
      = some (abortUnauthorized apiErrorResponse
          (errorsNew ("unsuppoerted authorization type " ++ ToLower caseTable f0)) s) := by
  have h0 : len (s.ctx.GetHeader authorizationHeaderKey) ≠ 0 :=
    fun e => header_ne_empty_of_fields hf ((len_eq_zero_iff _).1 e)
  simp [authMiddleware, abortUnauthorized, h0, hf, hs]

theorem authMiddleware_of_verify_error {f0 f1 : String} {rest : List String}
    {payload : π} {err : GoError} {w : γ}
    (hf : Fields (s.ctx.GetHeader authorizationHeaderKey) = f0 :: f1 :: rest)
    (hs : ToLower caseTable f0 = authorizationTypeBearer)
    (hv : tokenGenerator.VerifyToken s.world f1 = ((payload, some err), w)) :
    authMiddleware caseTable apiErrorResponse tokenGenerator ctxNext s
      = some { abortUnauthorized apiErrorResponse err s with world := w } := by
  have h0 : len (s.ctx.GetHeader authorizationHeaderKey) ≠ 0 :=
    fun e => header_ne_empty_of_fields hf ((len_eq_zero_iff _).1 e)
  simp [authMiddleware, abortUnauthorized, h0, hf, hs, hv]

theorem authMiddleware_of_verify_ok {f0 f1 : String} {rest : List String}
    {payload : π} {w : γ}
    (hf : Fields (s.ctx.GetHeader authorizationHeaderKey) = f0 :: f1 :: rest)
    (hs : ToLower caseTable f0 = authorizationTypeBearer)
    (hv : tokenGenerator.VerifyToken s.world f1 = ((payload, none), w)) :
    authMiddleware caseTable apiErrorResponse tokenGenerator ctxNext s
      = ctxNext { ctx := s.ctx.Set authorizationPayloadKey payload, world := w } := by
  have h0 : len (s.ctx.GetHeader authorizationHeaderKey) ≠ 0 :=
    fun e => header_ne_empty_of_fields hf ((len_eq_zero_iff _).1 e)
  simp [authMiddleware, h0, hf, hs, hv]

end branches

/-! ## The dispatcher after an abort -/

/-- A first handler that aborts, whatever `Next` it is given, ends the request:
no handler of the rest of the chain is called. -/
theorem serve_of_abort {γ π β : Type} (h : HandlerFunc γ π β)
    (rest : List (HandlerFunc γ π β)) (s s1 : State γ π β) (fuel : Nat)
    (hlen : rest.length < 63) (hfuel : 3 ≤ fuel)
    (hrun : ∀ ctxNext, h ctxNext { s with ctx := { s.ctx with index := 0 } } = some s1)
    (hidx : s1.ctx.index = abortIndex) :
    serve (h :: rest) fuel s
      = some { s1 with ctx := { s1.ctx with index := abortIndex + 1 } } := by
  obtain ⟨k, rfl⟩ : ∃ k, fuel = k + 3 := ⟨fuel - 3, by omega⟩
  have hnot : ¬ (abortIndex + 1 < ((rest.length : Int) + 1)) := by
    simp only [abortIndex]; omega
  simp [serve, Next, nextLoop, hrun, hidx, hnot]

/-! ## Claims on `authMiddleware` -/

/-- C1: when the `Authorization` header is absent or is the empty string, the
middleware aborts with status 401 and the body `apiErrorResponse` builds from the
error "authorization header is not provided"; `Keys` is left as it was, the handler
`Next` is not called (the outcome is the same for every `Next`), and the dispatcher
calls no handler after the middleware. -/
theorem authMiddleware_header_not_provided {γ π β : Type} (caseTable : Char → Char)
    (apiErrorResponse : GoError → β) (tokenGenerator : Generator γ π)
    (s : State γ π β)
    (habsent : s.ctx.RequestHeader.lookup "Authorization" = none
      ∨ s.ctx.GetHeader authorizationHeaderKey = "") :
    ∃ s1 : State γ π β,
      (∀ ctxNext, authMiddleware caseTable apiErrorResponse tokenGenerator ctxNext s
          = some s1) ∧
      s1.ctx.IsAborted = true ∧
      s1.ctx.Writer = s.ctx.Writer ++ [(401, apiErrorResponse
          (errorsNew "authorization header is not provided"))] ∧
      (errorsNew "authorization header is not provided").Error
          = "authorization header is not provided" ∧
      s1.ctx.Keys = s.ctx.Keys ∧
      s1.ctx.Get authorizationPayloadKey = s.ctx.Get authorizationPayloadKey ∧
      s1.world = s.world ∧
      ∀ (rest : List (HandlerFunc γ π β)) (fuel : Nat), rest.length < 63 → 3 ≤ fuel →
        serve (authMiddleware caseTable apiErrorResponse tokenGenerator :: rest) fuel s
          = some { s1 with ctx := { s1.ctx with index := abortIndex + 1 } } := by
  have hempty : s.ctx.GetHeader authorizationHeaderKey = "" :=
    habsent.elim (GetHeader_of_absent s.ctx) id
  refine ⟨abortUnauthorized apiErrorResponse
    (errorsNew "authorization header is not provided") s, ?_, rfl, rfl, rfl, rfl, rfl, rfl, ?_⟩
  · intro ctxNext
    exact authMiddleware_of_empty caseTable apiErrorResponse tokenGenerator ctxNext s hempty
  · intro rest fuel hlen hfuel
    refine serve_of_abort _ rest s _ fuel hlen hfuel ?_ rfl
    intro ctxNext
    exact authMiddleware_of_empty caseTable apiErrorResponse tokenGenerator ctxNext _ hempty

theorem authMiddleware_header_not_provided_witness :
    requestWithout.ctx.RequestHeader.lookup "Authorization" = none ∧
    ∃ s1 : State Nat String String,
      authMiddleware id GoError.Error countingGenerator (fun _ => none) requestWithout
        = some s1 ∧
      s1.ctx.Writer = [(401, "authorization header is not provided")] ∧
      s1.ctx.Keys = [] ∧ s1.world = 0 ∧
      serve [authMiddleware id GoError.Error countingGenerator, echoHandler] 3
        requestWithout = some { s1 with ctx := { s1.ctx with index := 64 } } := by
  refine ⟨by decide, ?_⟩
  obtain ⟨s1, h1, _, h3, _, h5, _, h7, h8⟩ :=
    authMiddleware_header_not_provided id GoError.Error countingGenerator requestWithout
      (Or.inl (by decide))
  exact ⟨s1, h1 _, h3, h5, h7, h8 [echoHandler] 3 (by decide) (by decide)⟩

/-- C2: a non-empty `Authorization` header with fewer than 2 whitespace-separated
fields (one field, or white space only) makes the middleware abort with status 401
and the body built from the error "invalid authorization header format"; `Keys` is
left as it was, `Next` is not called and the dispatcher calls no later handler. -/
theorem authMiddleware_invalid_format {γ π β : Type} (caseTable : Char → Char)
    (apiErrorResponse : GoError → β) (tokenGenerator : Generator γ π)
    (s : State γ π β)
    (hne : s.ctx.GetHeader authorizationHeaderKey ≠ "")
    (hfields : (Fields (s.ctx.GetHeader authorizationHeaderKey)).length < 2) :
    ∃ s1 : State γ π β,
      (∀ ctxNext, authMiddleware caseTable apiErrorResponse tokenGenerator ctxNext s
          = some s1) ∧
      s1.ctx.IsAborted = true ∧
      s1.ctx.Writer = s.ctx.Writer ++ [(401, apiErrorResponse
          (errorsNew "invalid authorization header format"))] ∧
      (errorsNew "invalid authorization header format").Error
          = "invalid authorization header format" ∧
      s1.ctx.Keys = s.ctx.Keys ∧
      s1.ctx.Get authorizationPayloadKey = s.ctx.Get authorizationPayloadKey ∧
      s1.world = s.world ∧
      ∀ (rest : List (HandlerFunc γ π β)) (fuel : Nat), rest.length < 63 → 3 ≤ fuel →
        serve (authMiddleware caseTable apiErrorResponse tokenGenerator :: rest) fuel s
          = some { s1 with ctx := { s1.ctx with index := abortIndex + 1 } } := by
  refine ⟨abortUnauthorized apiErrorResponse
    (errorsNew "invalid authorization header format") s, ?_, rfl, rfl, rfl, rfl, rfl, rfl, ?_⟩
  · intro ctxNext
    exact authMiddleware_of_short caseTable apiErrorResponse tokenGenerator ctxNext s
      hne hfields
  · intro rest fuel hlen hfuel
    refine serve_of_abort _ rest s _ fuel hlen hfuel ?_ rfl
    intro ctxNext
    exact authMiddleware_of_short caseTable apiErrorResponse tokenGenerator ctxNext _
      hne hfields

theorem authMiddleware_invalid_format_witness :
    ((requestWith "Bearer").ctx.GetHeader authorizationHeaderKey ≠ "" ∧
      (Fields ((requestWith "Bearer").ctx.GetHeader authorizationHeaderKey)).length = 1 ∧
      (Fields ((requestWith " \t ").ctx.GetHeader authorizationHeaderKey)).length = 0) ∧
    (∃ s1 : State Nat String String,
      authMiddleware id GoError.Error countingGenerator (fun _ => none)
        (requestWith "Bearer") = some s1 ∧
      s1.ctx.Writer = [(401, "invalid authorization header format")] ∧
      s1.ctx.Keys = [] ∧ s1.world = 0) ∧
    (∃ s1 : State Nat String String,
      authMiddleware id GoError.Error countingGenerator (fun _ => none)
        (requestWith " \t ") = some s1 ∧
      s1.ctx.Writer = [(401, "invalid authorization header format")]) := by
  refine ⟨by decide, ?_, ?_⟩
  · obtain ⟨s1, h1, _, h3, _, h5, _, h7, _⟩ :=
      authMiddleware_invalid_format id GoError.Error countingGenerator
        (requestWith "Bearer") (by decide) (by decide)
    exact ⟨s1, h1 _, h3, h5, h7⟩
  · obtain ⟨s1, h1, _, h3, _⟩ :=
      authMiddleware_invalid_format id GoError.Error countingGenerator
        (requestWith " \t ") (by decide) (by decide)
    exact ⟨s1, h1 _, h3⟩

/-- C3: a header with at least 2 fields whose first field, lower-cased, is not
"bearer" makes the middleware abort with status 401 and the body built from an
error whose text ends with (and so contains) the lower-cased first field; `Keys` is
left as it was, `Next` is not called and the dispatcher calls no later handler. -/
theorem authMiddleware_unsupported_type {γ π β : Type} (caseTable : Char → Char)
    (apiErrorResponse : GoError → β) (tokenGenerator : Generator γ π)
    (s : State γ π β) (f0 f1 : String) (more : List String)
    (hfields : Fields (s.ctx.GetHeader authorizationHeaderKey) = f0 :: f1 :: more)
    (htype : ToLower caseTable f0 ≠ "bearer") :
    ∃ (s1 : State γ π β) (err : GoError),
      (∀ ctxNext, authMiddleware caseTable apiErrorResponse tokenGenerator ctxNext s
          = some s1) ∧
      s1.ctx.IsAborted = true ∧
      s1.ctx.Writer = s.ctx.Writer ++ [(401, apiErrorResponse err)] ∧
      err.Error = "unsuppoerted authorization type " ++ ToLower caseTable f0 ∧
      (ToLower caseTable f0).data <:+: err.Error.data ∧
      s1.ctx.Keys = s.ctx.Keys ∧
      s1.ctx.Get authorizationPayloadKey = s.ctx.Get authorizationPayloadKey ∧
      s1.world = s.world ∧
      ∀ (rest : List (HandlerFunc γ π β)) (fuel : Nat), rest.length < 63 → 3 ≤ fuel →
        serve (authMiddleware caseTable apiErrorResponse tokenGenerator :: rest) fuel s
          = some { s1 with ctx := { s1.ctx with index := abortIndex + 1 } } := by
  refine ⟨abortUnauthorized apiErrorResponse
    (errorsNew ("unsuppoerted authorization type " ++ ToLower caseTable f0)) s, _,
    ?_, rfl, rfl, rfl, ?_, rfl, rfl, rfl, ?_⟩
  · intro ctxNext
    exact authMiddleware_of_scheme caseTable apiErrorResponse tokenGenerator ctxNext s
      hfields htype
  · exact ⟨"unsuppoerted authorization type ".data, [], by
      simp [GoError.Error, errorsNew, String.data_append]⟩
  · intro rest fuel hlen hfuel
    refine serve_of_abort _ rest s _ fuel hlen hfuel ?_ rfl
    intro ctxNext
    exact authMiddleware_of_scheme caseTable apiErrorResponse tokenGenerator ctxNext _
      hfields htype

theorem authMiddleware_unsupported_type_witness :
    (Fields ((requestWith "Basic xyz").ctx.GetHeader authorizationHeaderKey)
        = ["Basic", "xyz"] ∧ ToLower id "Basic" ≠ "bearer") ∧
    ∃ s1 : State Nat String String,
      authMiddleware id GoError.Error countingGenerator (fun _ => none)
        (requestWith "Basic xyz") = some s1 ∧
      s1.ctx.Writer = [(401, "unsuppoerted authorization type basic")] ∧
      s1.ctx.Keys = [] ∧ s1.world = 0 := by
  refine ⟨by decide, ?_⟩
  obtain ⟨s1, err, h1, _, h3, h4, _, h6, _, h8, _⟩ :=
    authMiddleware_unsupported_type id GoError.Error countingGenerator
      (requestWith "Basic xyz") "Basic" "xyz" [] (by decide) (by decide)
  refine ⟨s1, h1 _, ?_, h6, h8⟩
  rw [h3]
  have : GoError.Error err = "unsuppoerted authorization type basic" := by
    rw [h4]; decide
  simp [this, requestWith]

/-- After `Set`, `Get` on the same key finds the value stored. -/
theorem Context.Get_Set {π β : Type} (c : Context π β) (key : String) (value : π) :
    (c.Set key value).Get key = some value := by
  simp [Context.Get, Context.Set, List.lookup]

/-- C4: on a header with at least 2 fields whose first field lower-cases to
"bearer", the middleware calls `VerifyToken` on the second field as it stands (its
outcome depends on the generator through that one call only); when the call returns
payload `p` and no error, the middleware calls `Next` on the context in which
"authorization_payload" holds `p`, nothing was written and nothing was aborted, and
returns what `Next` returns; served in front of a final handler, that handler runs
on this context. -/
theorem authMiddleware_valid_token {γ π β : Type} (caseTable : Char → Char)
    (apiErrorResponse : GoError → β) (tokenGenerator : Generator γ π)
    (s : State γ π β) (f0 f1 : String) (more : List String) (p : π) (w : γ)
    (hfields : Fields (s.ctx.GetHeader authorizationHeaderKey) = f0 :: f1 :: more)
    (htype : ToLower caseTable f0 = "bearer")
    (hverify : tokenGenerator.VerifyToken s.world f1 = ((p, none), w)) :
    (∀ ctxNext, authMiddleware caseTable apiErrorResponse tokenGenerator ctxNext s
        = ctxNext { ctx := s.ctx.Set authorizationPayloadKey p, world := w }) ∧
    (s.ctx.Set authorizationPayloadKey p).Get authorizationPayloadKey = some p ∧
    (s.ctx.Set authorizationPayloadKey p).Writer = s.ctx.Writer ∧
    (s.ctx.Set authorizationPayloadKey p).index = s.ctx.index ∧
    (∀ other : Generator γ π,
      other.VerifyToken s.world f1 = tokenGenerator.VerifyToken s.world f1 →
      ∀ ctxNext, authMiddleware caseTable apiErrorResponse other ctxNext s
        = authMiddleware caseTable apiErrorResponse tokenGenerator ctxNext s) ∧
    ∀ (final : State γ π β → State γ π β) (fuel : Nat),
      (∀ x, (final x).ctx.index = x.ctx.index) → 5 ≤ fuel →
      serve [authMiddleware caseTable apiErrorResponse tokenGenerator,
          fun _ x => some (final x)] fuel s
        = some
          { ctx :=
              { (final { ctx := { ({ s.ctx with index := 0 }).Set authorizationPayloadKey p
                                  with index := 1 },
                         world := w }).ctx with index := 3 },
            world := (final { ctx := { ({ s.ctx with index := 0 }).Set
                                        authorizationPayloadKey p with index := 1 },
                              world := w }).world } := by
  refine ⟨?_, Context.Get_Set _ _ _, rfl, rfl, ?_, ?_⟩
  · intro ctxNext
    exact authMiddleware_of_verify_ok caseTable apiErrorResponse tokenGenerator ctxNext s
      hfields htype hverify
  · intro other hother ctxNext
    rw [authMiddleware_of_verify_ok caseTable apiErrorResponse tokenGenerator ctxNext s
        hfields htype hverify,
      authMiddleware_of_verify_ok caseTable apiErrorResponse other ctxNext s
        hfields htype (hother.trans hverify)]
  · intro final fuel hfinal hfuel
    obtain ⟨k, rfl⟩ : ∃ k, fuel = k + 5 := ⟨fuel - 5, by omega⟩
    have hrun : ∀ ctxNext,
        authMiddleware caseTable apiErrorResponse tokenGenerator ctxNext
            { s with ctx := { s.ctx with index := 0 } }
          = ctxNext { ctx := ({ s.ctx with index := 0 }).Set authorizationPayloadKey p,
                      world := w } := fun ctxNext =>
      authMiddleware_of_verify_ok caseTable apiErrorResponse tokenGenerator ctxNext
        { s with ctx := { s.ctx with index := 0 } } hfields htype hverify
    simp [serve, Next, nextLoop, hrun, hfinal, Context.Set]

theorem authMiddleware_valid_token_witness :
    (Fields ((requestWith "BEARER good").ctx.GetHeader authorizationHeaderKey)
        = ["BEARER", "good"] ∧ ToLower id "BEARER" = "bearer" ∧
      countingGenerator.VerifyToken 0 "good" = (("payload of good", none), 1)) ∧
    serve [authMiddleware id GoError.Error countingGenerator,
        fun _ x => some { x with ctx := x.ctx.JSON 200 "ok" }] 5 (requestWith "BEARER good")
      = some { ctx := { RequestHeader := [("Authorization", ["BEARER good"])], index := 3,
                        Keys := [("authorization_payload", "payload of good")],
                        Writer := [(200, "ok")] },
               world := 1 } := by
  refine ⟨by decide, ?_⟩
  exact (authMiddleware_valid_token id GoError.Error countingGenerator
    (requestWith "BEARER good") "BEARER" "good" [] "payload of good" 1
    (by decide) (by decide) (by decide)).2.2.2.2.2
    (fun x => { x with ctx := x.ctx.JSON 200 "ok" }) 5 (fun _ => rfl) (by decide)

/-- C5: on a header with at least 2 fields whose first field lower-cases to
"bearer", when `VerifyToken` on the second field returns an error `e`, the
middleware aborts with status 401 and the body `apiErrorResponse(e)`; `Keys` is left
as it was, `Next` is not called and the dispatcher calls no later handler. -/
theorem authMiddleware_verification_error {γ π β : Type} (caseTable : Char → Char)
    (apiErrorResponse : GoError → β) (tokenGenerator : Generator γ π)
    (s : State γ π β) (f0 f1 : String) (more : List String) (p : π) (e : GoError)
    (w : γ)
    (hfields : Fields (s.ctx.GetHeader authorizationHeaderKey) = f0 :: f1 :: more)
    (htype : ToLower caseTable f0 = "bearer")
    (hverify : tokenGenerator.VerifyToken s.world f1 = ((p, some e), w)) :
    ∃ s1 : State γ π β,
      (∀ ctxNext, authMiddleware caseTable apiErrorResponse tokenGenerator ctxNext s
          = some s1) ∧
      s1.ctx.IsAborted = true ∧
      s1.ctx.Writer = s.ctx.Writer ++ [(401, apiErrorResponse e)] ∧
      s1.ctx.Keys = s.ctx.Keys ∧
      s1.ctx.Get authorizationPayloadKey = s.ctx.Get authorizationPayloadKey ∧
      s1.world = w ∧
      ∀ (rest : List (HandlerFunc γ π β)) (fuel : Nat), rest.length < 63 → 3 ≤ fuel →
        serve (authMiddleware caseTable apiErrorResponse tokenGenerator :: rest) fuel s
          = some { s1 with ctx := { s1.ctx with index := abortIndex + 1 } } := by
  refine ⟨{ abortUnauthorized apiErrorResponse e s with world := w },
    ?_, rfl, rfl, rfl, rfl, rfl, ?_⟩
  · intro ctxNext
    exact authMiddleware_of_verify_error caseTable apiErrorResponse tokenGenerator ctxNext s
      hfields htype hverify
  · intro rest fuel hlen hfuel
    refine serve_of_abort _ rest s _ fuel hlen hfuel ?_ rfl
    intro ctxNext
    exact authMiddleware_of_verify_error caseTable apiErrorResponse tokenGenerator ctxNext
      { s with ctx := { s.ctx with index := 0 } } hfields htype hverify

theorem authMiddleware_verification_error_witness :
    (Fields ((requestWith "bearer forged").ctx.GetHeader authorizationHeaderKey)
        = ["bearer", "forged"] ∧ ToLower id "bearer" = "bearer" ∧
      countingGenerator.VerifyToken 0 "forged"
        = (("", some (errorsNew "token is invalid")), 1)) ∧
    ∃ s1 : State Nat String String,
      authMiddleware id GoError.Error countingGenerator (fun _ => none)
        (requestWith "bearer forged") = some s1 ∧
      s1.ctx.Writer = [(401, "token is invalid")] ∧ s1.ctx.Keys = [] ∧ s1.world = 1 ∧
      serve [authMiddleware id GoError.Error countingGenerator, echoHandler] 3
        (requestWith "bearer forged") = some { s1 with ctx := { s1.ctx with index := 64 } } := by
  refine ⟨by decide, ?_⟩
  obtain ⟨s1, h1, _, h3, h4, _, h6, h7⟩ :=
    authMiddleware_verification_error id GoError.Error countingGenerator
      (requestWith "bearer forged") "bearer" "forged" [] "" (errorsNew "token is invalid") 1
      (by decide) (by decide) (by decide)
  exact ⟨s1, h1 _, h3, h4, h6, h7 [echoHandler] 3 (by decide) (by decide)⟩

/-- C6, as stated, fails: the header "Bearer good extra" has 3 fields, and with a
generator accepting "good" the middleware writes no 401, stores the payload and lets
the final handler answer 200. -/
theorem authMiddleware_three_fields_accepted :
    (Fields ((requestWith "Bearer good extra").ctx.GetHeader authorizationHeaderKey)).length
        = 3 ∧
    serve [authMiddleware id GoError.Error countingGenerator, echoHandler] 5
        (requestWith "Bearer good extra")
      = some { ctx := { RequestHeader := [("Authorization", ["Bearer good extra"])],
                        index := 3,
                        Keys := [("authorization_payload", "payload of good")],
                        Writer := [(200, "payload of good")] },
               world := 1 } := by
  exact ⟨by decide, rfl⟩

/-- C6, amended: a header with fewer than 2 fields is rejected with status 401,
whatever the generator, and `Next` is not called; a header with 3 or more fields is
not rejected for its length: when its first field lower-cases to "bearer" and
`VerifyToken` accepts its second field, the fields after the second are ignored and
the request proceeds with the payload stored. -/
theorem authMiddleware_field_count {γ π β : Type} (caseTable : Char → Char)
    (apiErrorResponse : GoError → β) (s : State γ π β) :
    ((Fields (s.ctx.GetHeader authorizationHeaderKey)).length < 2 →
      ∃ (s1 : State γ π β) (err : GoError),
        (∀ (tokenGenerator : Generator γ π) ctxNext,
          authMiddleware caseTable apiErrorResponse tokenGenerator ctxNext s = some s1) ∧
        s1.ctx.IsAborted = true ∧
        s1.ctx.Writer = s.ctx.Writer ++ [(401, apiErrorResponse err)] ∧
        s1.ctx.Keys = s.ctx.Keys ∧ s1.world = s.world) ∧
    (∀ (tokenGenerator : Generator γ π) (f0 f1 f2 : String) (more : List String) (p : π)
        (w : γ),
      Fields (s.ctx.GetHeader authorizationHeaderKey) = f0 :: f1 :: f2 :: more →
      ToLower caseTable f0 = "bearer" →
      tokenGenerator.VerifyToken s.world f1 = ((p, none), w) →
      ∀ ctxNext, authMiddleware caseTable apiErrorResponse tokenGenerator ctxNext s
        = ctxNext { ctx := s.ctx.Set authorizationPayloadKey p, world := w }) := by
  constructor
  · intro hlen
    by_cases hempty : s.ctx.GetHeader authorizationHeaderKey = ""
    · exact ⟨_, errorsNew "authorization header is not provided",
        fun g ctxNext => authMiddleware_of_empty caseTable apiErrorResponse g ctxNext s hempty,
        rfl, rfl, rfl, rfl⟩
    · exact ⟨_, errorsNew "invalid authorization header format",
        fun g ctxNext =>
          authMiddleware_of_short caseTable apiErrorResponse g ctxNext s hempty hlen,
        rfl, rfl, rfl, rfl⟩
  · intro g f0 f1 f2 more p w hfields htype hverify ctxNext
    exact authMiddleware_of_verify_ok caseTable apiErrorResponse g ctxNext s
      hfields htype hverify

theorem authMiddleware_field_count_witness :
    ((Fields ((requestWith "Bearer").ctx.GetHeader authorizationHeaderKey)).length < 2 ∧
      Fields ((requestWith "Bearer good extra").ctx.GetHeader authorizationHeaderKey)
        = ["Bearer", "good", "extra"] ∧
      ToLower id "Bearer" = "bearer" ∧
      countingGenerator.VerifyToken 0 "good" = (("payload of good", none), 1)) ∧
    (∃ s1 : State Nat String String,
      authMiddleware id GoError.Error countingGenerator (fun _ => none)
        (requestWith "Bearer") = some s1 ∧ s1.ctx.IsAborted = true) ∧
    authMiddleware id GoError.Error countingGenerator (fun x => some x)
        (requestWith "Bearer good extra")
      = some { ctx := (requestWith "Bearer good extra").ctx.Set authorizationPayloadKey
                 "payload of good", world := 1 } := by
  refine ⟨by decide, ?_, ?_⟩
  · obtain ⟨s1, _, h1, h2, _⟩ :=
      (authMiddleware_field_count id GoError.Error (requestWith "Bearer")).1 (by decide)
    exact ⟨s1, h1 countingGenerator _, h2⟩
  · exact (authMiddleware_field_count id GoError.Error (requestWith "Bearer good extra")).2
      countingGenerator "Bearer" "good" "extra" [] "payload of good" 1
      (by decide) (by decide) (by decide) (fun x => some x)

/-- C7: a header that is missing, empty, has fewer than 2 fields or whose first
field does not lower-case to "bearer" is answered without calling `VerifyToken`:
the error of the response is fixed by the header value alone, and for every
generator, over any state, with any `Next`, the middleware aborts with status 401
and that error and hands back the state of the generator untouched. -/
theorem authMiddleware_format_errors_before_verification {π β : Type}
    (caseTable : Char → Char) (apiErrorResponse : GoError → β) (hdr : String)
    (hbad : hdr = "" ∨ (Fields hdr).length < 2
      ∨ ToLower caseTable ((Fields hdr).getD 0 "") ≠ "bearer") :
    ∃ err : GoError,
      ∀ (γ : Type) (tokenGenerator : Generator γ π)
        (ctxNext : State γ π β → Option (State γ π β)) (s : State γ π β),
        (s.ctx.GetHeader authorizationHeaderKey = hdr
          ∨ (s.ctx.RequestHeader.lookup "Authorization" = none ∧ hdr = "")) →
        authMiddleware caseTable apiErrorResponse tokenGenerator ctxNext s
          = some { ctx := s.ctx.AbortWithStatusJSON StatusUnauthorized (apiErrorResponse err),
                   world := s.world } := by
  have key : ∀ {γ : Type} (s : State γ π β),
      (s.ctx.GetHeader authorizationHeaderKey = hdr
        ∨ (s.ctx.RequestHeader.lookup "Authorization" = none ∧ hdr = "")) →
      s.ctx.GetHeader authorizationHeaderKey = hdr := by
    intro γ s h
    rcases h with h | ⟨h, rfl⟩
    · exact h
    · exact GetHeader_of_absent s.ctx h
  by_cases hempty : hdr = ""
  · refine ⟨errorsNew "authorization header is not provided", ?_⟩
    intro γ g ctxNext s hs
    exact authMiddleware_of_empty caseTable apiErrorResponse g ctxNext s
      ((key s hs).trans hempty)
  · by_cases hshort : (Fields hdr).length < 2
    · refine ⟨errorsNew "invalid authorization header format", ?_⟩
      intro γ g ctxNext s hs
      have hh := key s hs
      exact authMiddleware_of_short caseTable apiErrorResponse g ctxNext s
        (by rw [hh]; exact hempty) (by rw [hh]; exact hshort)
    · have htype : ToLower caseTable ((Fields hdr).getD 0 "") ≠ "bearer" := by
        rcases hbad with h | h | h
        · exact absurd h hempty
        · exact absurd h hshort
        · exact h
      refine ⟨errorsNew ("unsuppoerted authorization type "
        ++ ToLower caseTable ((Fields hdr).getD 0 "")), ?_⟩
      intro γ g ctxNext s hs
      have hh := key s hs
      match hf : Fields hdr, hshort, htype with
      | [], h2, _ => exact absurd (by simp) h2
      | [_], h2, _ => exact absurd (by simp) h2
      | f0 :: f1 :: more, _, h3 =>
        exact authMiddleware_of_scheme caseTable apiErrorResponse g ctxNext s
          (by rw [hh]; exact hf) (by simpa using h3)

theorem authMiddleware_format_errors_before_verification_witness :
    (Fields "Basic good").length = 2 ∧ ToLower id ((Fields "Basic good").getD 0 "") ≠ "bearer" ∧
    (requestWith "Basic good").ctx.GetHeader authorizationHeaderKey = "Basic good" ∧
    ∃ err : GoError,
      authMiddleware id GoError.Error countingGenerator (fun _ => none)
          (requestWith "Basic good")
        = some { ctx := (requestWith "Basic good").ctx.AbortWithStatusJSON 401 err.Error,
                 world := 0 } ∧
      authMiddleware id GoError.Error
          ({ VerifyToken := fun (_ : Unit) _ => (("any", none), ()) } : Generator Unit String)
          (fun x => some x)
          { ctx := (requestWith "Basic good").ctx, world := () }
        = some { ctx := (requestWith "Basic good").ctx.AbortWithStatusJSON 401 err.Error,
                 world := () } := by
  refine ⟨by decide, by decide, by decide, ?_⟩
  obtain ⟨err, h⟩ :=
    authMiddleware_format_errors_before_verification (π := String) id GoError.Error
      "Basic good" (Or.inr (Or.inr (by decide)))
  exact ⟨err, h Nat countingGenerator _ _ (Or.inl (by decide)),
    h Unit _ _ _ (Or.inl (by decide))⟩

/-! ## Claims on package token -/

theorem exampleCodec_sound : exampleCodec.Sound := by
  refine ⟨fun p => ⟨[Encodable.encode p], rfl, ?_⟩, ?_, ?_⟩
  · simp [exampleCodec]
  · intro key bytes
    have h9 : "v2.local.".data.length = 9 := by decide
    simp [exampleCodec, List.take_append_of_le_length, h9]
  · intro key bytes h
    have := congrArg String.data h
    simp [exampleCodec] at this

set_option maxRecDepth 100000 in
theorem UUID.NewRandom_ne_Nil (random : Fin 16 → Fin 256) :
    UUID.NewRandom random ≠ UUID.Nil := by
  intro h
  have h6 := congrFun h 6
  have key : ∀ b : Fin 256, (Fin.ofNat ((b.val &&& 0x0f) ||| 0x40) : Fin 256) ≠ 0 := by
    decide
  exact key (random 6) (by simpa [UUID.NewRandom, UUID.Nil] using h6)

/-- What `VerifyToken` answers on the token `CreateToken` made, for a sound codec. -/
theorem VerifyToken_CreateToken (codec : Codec) (hsound : codec.Sound)
    (g : PasetoGenerator) (now : Time) (random : Fin 16 → Fin 256) (username : String)
    (userID : UUID) (duration : Duration) :
    ∃ token : String,
      g.CreateToken codec now random username userID duration
        = Except.ok (token, NewPayload now random username userID duration) ∧
      token ≠ "" ∧
      ∀ later : Time, g.VerifyToken codec later token
        = if later > now + duration then Except.error ErrExpiredToken
          else Except.ok (NewPayload now random username userID duration) := by
  obtain ⟨hser, hdec, hne⟩ := hsound
  obtain ⟨bytes, hb, hd⟩ := hser (NewPayload now random username userID duration)
  refine ⟨codec.encrypt g.symmetricKey bytes, ?_, hne _ _, ?_⟩
  · simp [PasetoGenerator.CreateToken, hb]
  · intro later
    simp [PasetoGenerator.VerifyToken, hdec, hd, NewPayload]

/-- C8, as stated, fails: a token made at clock reading 0 with the positive duration
of 1 nanosecond is rejected with `ErrExpiredToken` by `VerifyToken` at clock
reading 2. -/
theorem round_trip_fails_after_expiry :
    NewPasetoGenerator exampleKey = Except.ok { symmetricKey := exampleKey } ∧
    (0 : Duration) < 1 ∧
    ∃ (token : String) (payload : Payload),
      PasetoGenerator.CreateToken { symmetricKey := exampleKey } exampleCodec 0
          (fun _ => 0) "alice" UUID.Nil 1 = Except.ok (token, payload) ∧
      PasetoGenerator.VerifyToken { symmetricKey := exampleKey } exampleCodec 2 token
        = Except.error ErrExpiredToken := by
  refine ⟨rfl, by decide, ?_⟩
  obtain ⟨token, hcreate, _, hverify⟩ :=
    VerifyToken_CreateToken exampleCodec exampleCodec_sound
      { symmetricKey := exampleKey } 0 (fun _ => 0) "alice" UUID.Nil 1
  exact ⟨token, _, hcreate, by rw [hverify]; rfl⟩

/-- C8, amended: for a sound codec, a generator built from a key of 32 bytes, every
username, subject UUID and duration > 0, `CreateToken` succeeds with a non-empty
token and a non-zero payload whose validity window is not empty, and `VerifyToken`
on that token, called at a clock reading not after `ExpiredAt`, succeeds and returns
a payload with the same username, a non-zero ID, `IssuedAt` within 1 second of the
clock reading of the `CreateToken` call and `ExpiredAt` within 1 second of that
reading plus the duration. -/
theorem token_round_trip (codec : Codec) (hsound : codec.Sound) (secretKey : String)
    (g : PasetoGenerator) (hkey : len secretKey = 32)
    (hg : NewPasetoGenerator secretKey = Except.ok g)
    (random : Fin 16 → Fin 256) (username : String) (userID : UUID)
    (duration : Duration) (hduration : 0 < duration)
    (created verified : Time) (hvalid : verified ≤ created + duration) :
    g.symmetricKey = secretKey ∧
    ∃ (token : String) (payload : Payload),
      g.CreateToken codec created random username userID duration
        = Except.ok (token, payload) ∧
      token ≠ "" ∧ payload ≠ Payload.zero ∧ payload.IssuedAt < payload.ExpiredAt ∧
      ∃ verifiedPayload : Payload,
        g.VerifyToken codec verified token = Except.ok verifiedPayload ∧
        verifiedPayload.Username = username ∧
        verifiedPayload.ID ≠ UUID.Nil ∧
        |verifiedPayload.IssuedAt - created| ≤ Second ∧
        |verifiedPayload.ExpiredAt - (created + duration)| ≤ Second := by
  have hgk : g.symmetricKey = secretKey := by
    have h32 : (len secretKey != 32) = false := by simp [hkey]
    simp only [NewPasetoGenerator, h32, Bool.false_eq_true, if_false, Except.ok.injEq] at hg
    rw [← hg]
  obtain ⟨token, hcreate, hne, hverify⟩ :=
    VerifyToken_CreateToken codec hsound g created random username userID duration
  have hid : (NewPayload created random username userID duration).ID ≠ UUID.Nil :=
    UUID.NewRandom_ne_Nil random
  refine ⟨hgk, token, _, hcreate, hne, ?_, ?_, _, ?_, rfl, hid, ?_, ?_⟩
  · intro h
    exact hid (congrArg Payload.ID h)
  · exact lt_add_of_pos_right created hduration
  · rw [hverify]
    have : ¬ verified > created + duration := not_lt.mpr hvalid
    simp [this]
  · simp [NewPayload, Second]
  · simp [NewPayload, Second]

theorem token_round_trip_witness :
    (exampleCodec.Sound ∧ len exampleKey = 32 ∧
      NewPasetoGenerator exampleKey = Except.ok { symmetricKey := exampleKey } ∧
      (0 : Duration) < Minute ∧ (1000 : Time) + 5 * Second ≤ 1000 + Minute) ∧
    ∃ (token : String) (payload : Payload),
      PasetoGenerator.CreateToken { symmetricKey := exampleKey } exampleCodec 1000
          (fun _ => 7) "alice" UUID.Nil Minute = Except.ok (token, payload) ∧
      token ≠ "" ∧
      ∃ verifiedPayload : Payload,
        PasetoGenerator.VerifyToken { symmetricKey := exampleKey } exampleCodec
            (1000 + 5 * Second) token = Except.ok verifiedPayload ∧
        verifiedPayload.Username = "alice" := by
  refine ⟨⟨exampleCodec_sound, by decide, rfl, by decide, by decide⟩, ?_⟩
  obtain ⟨_, token, payload, h1, h2, _, _, q, h3, h4, _⟩ :=
    token_round_trip exampleCodec exampleCodec_sound exampleKey
      { symmetricKey := exampleKey } (by decide) rfl (fun _ => 7) "alice" UUID.Nil
      Minute (by decide) 1000 (1000 + 5 * Second) (by decide)
  exact ⟨token, payload, h1, h2, q, h3, h4⟩

/-- C9: for a sound codec, a generator built from a key of 32 bytes, every username,
subject UUID and duration < 0, `CreateToken` succeeds with a non-empty token and a
non-zero payload, and `VerifyToken` on that token, which is called when the clock
reads no less than it did at creation, fails with exactly `ErrExpiredToken` and so
returns no payload. -/
theorem token_expired (codec : Codec) (hsound : codec.Sound) (secretKey : String)
    (g : PasetoGenerator) (hkey : len secretKey = 32)
    (hg : NewPasetoGenerator secretKey = Except.ok g)
    (random : Fin 16 → Fin 256) (username : String) (userID : UUID)
    (duration : Duration) (hduration : duration < 0)
    (created verified : Time) (hclock : created ≤ verified) :
    g.symmetricKey = secretKey ∧
    ∃ (token : String) (payload : Payload),
      g.CreateToken codec created random username userID duration
        = Except.ok (token, payload) ∧
      token ≠ "" ∧ payload ≠ Payload.zero ∧
      g.VerifyToken codec verified token = Except.error ErrExpiredToken := by
  have hgk : g.symmetricKey = secretKey := by
    have h32 : (len secretKey != 32) = false := by simp [hkey]
    simp only [NewPasetoGenerator, h32, Bool.false_eq_true, if_false, Except.ok.injEq] at hg
    rw [← hg]
  obtain ⟨token, hcreate, hne, hverify⟩ :=
    VerifyToken_CreateToken codec hsound g created random username userID duration
  have hid : (NewPayload created random username userID duration).ID ≠ UUID.Nil :=
    UUID.NewRandom_ne_Nil random
  refine ⟨hgk, token, _, hcreate, hne, ?_, ?_⟩
  · intro h
    exact hid (congrArg Payload.ID h)
  · rw [hverify]
    have : verified > created + duration :=
      lt_of_lt_of_le (add_lt_of_neg_right created hduration) hclock
    simp [this]

theorem token_expired_witness :
    (exampleCodec.Sound ∧ len exampleKey = 32 ∧
      NewPasetoGenerator exampleKey = Except.ok { symmetricKey := exampleKey } ∧
      -Minute < (0 : Duration) ∧ (1000 : Time) ≤ 1001) ∧
    ∃ (token : String) (payload : Payload),
      PasetoGenerator.CreateToken { symmetricKey := exampleKey } exampleCodec 1000
          (fun _ => 7) "alice" UUID.Nil (-Minute) = Except.ok (token, payload) ∧
      token ≠ "" ∧
      PasetoGenerator.VerifyToken { symmetricKey := exampleKey } exampleCodec 1001 token
        = Except.error ErrExpiredToken := by
  refine ⟨⟨exampleCodec_sound, by decide, rfl, by decide, by decide⟩, ?_⟩
  obtain ⟨_, token, payload, h1, h2, _, h3⟩ :=
    token_expired exampleCodec exampleCodec_sound exampleKey
      { symmetricKey := exampleKey } (by decide) rfl (fun _ => 7) "alice" UUID.Nil
      (-Minute) (by decide) 1000 1001 (by decide)
  exact ⟨token, payload, h1, h2, h3⟩

/-- C10: `NewPasetoGenerator` succeeds, with a generator holding the key, for every
secret key of exactly 32 bytes, and for a key of any other length it fails with
`InvalidKeySize` and so returns no generator. -/
theorem NewPasetoGenerator_key_size (secretKey : String) :
    (len secretKey = 32 →
      NewPasetoGenerator secretKey = Except.ok { symmetricKey := secretKey }) ∧
    (len secretKey ≠ 32 →
      NewPasetoGenerator secretKey = Except.error TokenError.InvalidKeySize) := by
  constructor
  · intro h
    simp [NewPasetoGenerator, h]
  · intro h
    simp [NewPasetoGenerator, h]

theorem NewPasetoGenerator_key_size_witness :
    (len exampleKey = 32 ∧ len "01234567890123456789" ≠ 32) ∧
    NewPasetoGenerator exampleKey = Except.ok { symmetricKey := exampleKey } ∧
    NewPasetoGenerator "01234567890123456789" = Except.error TokenError.InvalidKeySize :=
  ⟨by decide,
    (NewPasetoGenerator_key_size exampleKey).1 (by decide),
    (NewPasetoGenerator_key_size "01234567890123456789").2 (by decide)⟩

end HelloDB
